import Mathlib

/-
Verification of the streaming subsystem of the ereyes01/firebase Go client.

The embedding models:
  * the SSE raw-frame parser: the goroutine inside `firebaseAPI.Stream`
    (api.go, byte-reader implementation, lines 122-168), which reads the
    response body byte by byte, splits it into newline-terminated lines,
    pairs consecutive lines into `RawEvent` frames with the literal
    prefixes "event: " and "data: " removed via
    `strings.Replace(line, pat, "", 1)`, and finally emits one terminal
    `RawEvent{Error: err}` (with `io.EOF` mapped to nil) before closing
    the channel;
  * the decode loop: the goroutine inside `client.Watch`
    (declarations.go lines 323-358) together with `handlePatchPut`
    (declarations.go lines 289-309).

The byte stream is a `List Char` of successfully delivered bytes followed
by a read result `readErr : Option GoErr` (`none` models the read ending
in a clean `io.EOF`, which the Go code converts to a nil error; `some e`
models any other read error).  Channels are modelled as the list of
values sent before the channel is closed, in order.  Go `error` values
are modelled by the inductive `GoErr`; the external `encoding/json`
envelope decoding and the caller-supplied unmarshaller are parameters of
the decode loop, exactly as `handlePatchPut` consumes them.
-/

namespace Firebase

/-- Go `error` values arising in the client: transport read errors from the
connection, `errors.New` string errors, `encoding/json` envelope decode
failures (tagged with the offending input), and caller unmarshaller
errors. -/
inductive GoErr where
  | ioError (msg : String)
  | strError (msg : String)
  | jsonError (input : String)
  | userError (msg : String)
deriving DecidableEq

/-- Mirrors `RawEvent` from declarations.go (lines 89-101): the raw event and
data payloads of a Firebase Event Source protocol message, plus an error
value set only on abnormal termination. -/
structure RawEvent where
  Event : String
  Data : String
  Error : Option GoErr
deriving DecidableEq

/-- Mirrors `strings.Replace(s, pat, "", 1)` for a string `s` and pattern
`pat`, on the character-list representation: remove the first occurrence of
`pat` from `s`, scanning left to right; if `pat` does not occur, `s` is
returned unchanged. -/
def stripFirst (pat : List Char) : List Char → List Char
  | [] => []
  | c :: rest =>
    if pat.isPrefixOf (c :: rest) then (c :: rest).drop pat.length
    else c :: stripFirst pat rest

/-- The literal "event: " pattern stripped from the first line of a frame
(api.go line 153). -/
def eventTag : List Char := "event: ".data

/-- The literal "data: " pattern stripped from the second line of a frame
(api.go line 154). -/
def dataTag : List Char := "data: ".data

/-- Frame construction from the Stream goroutine (api.go lines 152-154):
`event.Event = strings.Replace(firstLine, "event: ", "", 1)` and
`event.Data = strings.Replace(line, "data: ", "", 1)`. -/
def mkRawEvent (firstLine lineBuf : List Char) : RawEvent :=
  { Event := String.mk (stripFirst eventTag firstLine)
    Data := String.mk (stripFirst dataTag lineBuf)
    Error := none }

/-- The read loop of the Stream goroutine (api.go lines 131-159).  State:
`firstLine` is the saved event-type line (`""` when no line is saved yet)
and `lineBuf` is the byte buffer of the line being accumulated.  Each
non-newline byte is appended to `lineBuf`.  On a newline: if `firstLine`
is empty the completed line is saved into `firstLine`; otherwise a frame
is emitted from `firstLine` and the completed line, and both are reset.
The result is the list of frames sent on the channel by the loop, in
order. -/
def streamLoop : List Char → List Char → List Char → List RawEvent
  | [], _, _ => []
  | b :: rest, firstLine, lineBuf =>
    if b = '\n' then
      if firstLine = [] then
        streamLoop rest lineBuf []
      else
        mkRawEvent firstLine lineBuf :: streamLoop rest [] []
    else
      streamLoop rest firstLine (lineBuf ++ [b])

/-- Everything sent on the raw event channel for one stream session
(api.go lines 131-167): the frames produced by the read loop followed by
the single terminal event `RawEvent{Error: err}`, where a read that ended
in `io.EOF` yields a nil error (`readErr = none`) and any other read error
is carried as is. -/
def streamEvents (input : List Char) (readErr : Option GoErr) : List RawEvent :=
  streamLoop input [] [] ++ [{ Event := "", Data := "", Error := readErr }]

/-- Mirrors the anonymous struct `halfParsedData` in `handlePatchPut`
(declarations.go lines 290-293): the JSON envelope with a `path` and a raw
`data` payload (`json.RawMessage`, kept as its raw text). -/
structure Envelope where
  Path : String
  Data : String
deriving DecidableEq

/-- Mirrors `StreamEvent` from declarations.go (lines 103-129). -/
structure StreamEvent (α : Type) where
  Event : String
  Path : String
  Resource : Option α
  RawData : String
  UnmarshallerError : Option GoErr
  Error : Option GoErr
deriving DecidableEq

/-- Mirrors `handlePatchPut` (declarations.go lines 289-309).
`jsonUnmarshal` stands for `json.Unmarshal` of the raw data into the
`{Path, Data}` envelope; `unmarshaller` is the caller-supplied
`EventUnmarshaller` applied to the envelope's path and raw data.  If the
envelope fails to decode, the error is stored in `Error` and nothing else
is touched.  Otherwise `Path` is set from the envelope and the
unmarshaller result is stored in `Resource` on success or in
`UnmarshallerError` on failure. -/
def handlePatchPut {α : Type} (jsonUnmarshal : String → Except GoErr Envelope)
    (unmarshaller : String → String → Except GoErr α)
    (event : StreamEvent α) : StreamEvent α :=
  match jsonUnmarshal event.RawData with
  | .error err => { event with Error := some err }
  | .ok halfParsedData =>
    let event1 := { event with Path := halfParsedData.Path }
    match unmarshaller halfParsedData.Path halfParsedData.Data with
    | .error err => { event1 with UnmarshallerError := some err }
    | .ok object => { event1 with Resource := some object }

/-- The decode loop of the `client.Watch` goroutine (declarations.go lines
323-355), as a function from the list of raw events received on the raw
channel to the list of `StreamEvent`s sent on the processed channel before
it is closed.  Each raw event is wrapped into a `StreamEvent`; an event
carrying a non-nil error is forwarded and the loop continues; otherwise
the event type is dispatched: "patch"/"put" run `handlePatchPut` and
forward, "keep-alive" is dropped, "cancel" forwards a Permission Denied
error event and continues, "auth_revoked" forwards an Auth Token Revoked
error event and then closes the channel and returns (nothing after it is
processed), and any other event type is dropped. -/
def watchLoop {α : Type} (jsonUnmarshal : String → Except GoErr Envelope)
    (unmarshaller : String → String → Except GoErr α) :
    List RawEvent → List (StreamEvent α)
  | [] => []
  | rawEvent :: rest =>
    let event : StreamEvent α :=
      { Event := rawEvent.Event, Path := "", Resource := none,
        RawData := rawEvent.Data, UnmarshallerError := none, Error := rawEvent.Error }
    if event.Error ≠ none then
      event :: watchLoop jsonUnmarshal unmarshaller rest
    else if event.Event = "patch" ∨ event.Event = "put" then
      handlePatchPut jsonUnmarshal unmarshaller event :: watchLoop jsonUnmarshal unmarshaller rest
    else if event.Event = "keep-alive" then
      watchLoop jsonUnmarshal unmarshaller rest
    else if event.Event = "cancel" then
      { event with Error := some (GoErr.strError "Permission Denied") } ::
        watchLoop jsonUnmarshal unmarshaller rest
    else if event.Event = "auth_revoked" then
      [{ event with Error := some (GoErr.strError "Auth Token Revoked") }]
    else
      watchLoop jsonUnmarshal unmarshaller rest

/-- The composed pipeline: everything sent on the `Watch` output channel for
one stream session whose connection delivered `input` and then ended with
read result `readErr`. -/
def watchOutput {α : Type} (jsonUnmarshal : String → Except GoErr Envelope)
    (unmarshaller : String → String → Except GoErr α)
    (input : List Char) (readErr : Option GoErr) : List (StreamEvent α) :=
  watchLoop jsonUnmarshal unmarshaller (streamEvents input readErr)

/-- Test stand-in for `json.Unmarshal` of the envelope, used to instantiate
concrete counterexamples and witnesses: the payload "ENV" stands for a
syntactically valid envelope with path "1/2/3" and raw data "DATA"; every
other payload fails to decode (as `json.Unmarshal` fails on the malformed
payloads used below). -/
def testEnvDecode (s : String) : Except GoErr Envelope :=
  if s = "ENV" then .ok { Path := "1/2/3", Data := "DATA" }
  else .error (GoErr.jsonError s)

/-- Test stand-in for a caller-supplied `EventUnmarshaller`: succeeds on the
raw data "DATA" and fails with a "crash" error otherwise (mirroring the
unmarshallers used in client_test.go). -/
def testUnmarshaller (_path : String) (data : String) : Except GoErr Nat :=
  if data = "DATA" then .ok 1 else .error (GoErr.userError "crash")

/-! ### Helper lemmas about the raw frame parser -/

/-- One step of the read loop on a byte that is not a newline: the byte is
appended to the current line buffer. -/
theorem streamLoop_cons_byte (b : Char) (hb : b ≠ '\n') (rest fl buf : List Char) :
    streamLoop (b :: rest) fl buf = streamLoop rest fl (buf ++ [b]) := by
  simp [streamLoop, hb]

/-- Consuming one whole newline-terminated line: if no event line is saved
yet the completed line becomes the saved line, otherwise a frame is
emitted. -/
theorem streamLoop_consume_line (cs : List Char) (h : '\n' ∉ cs) (rest fl buf : List Char) :
    streamLoop (cs ++ '\n' :: rest) fl buf =
      if fl = [] then streamLoop rest (buf ++ cs) []
      else mkRawEvent fl (buf ++ cs) :: streamLoop rest [] [] := by
  induction cs generalizing buf with
  | nil => simp [streamLoop]
  | cons c cs ih =>
    have hc : c ≠ '\n' := fun hc => h (hc ▸ List.mem_cons_self c cs)
    have h' : '\n' ∉ cs := fun hm => h (List.mem_cons_of_mem c hm)
    rw [List.cons_append, streamLoop_cons_byte c hc, ih h', List.append_assoc]
    rfl

/-- Consuming one two-line frame from the initial parser state. -/
theorem streamLoop_pair (l1 l2 rest : List Char) (h1 : '\n' ∉ l1) (h2 : '\n' ∉ l2)
    (hne : l1 ≠ []) :
    streamLoop (l1 ++ '\n' :: (l2 ++ '\n' :: rest)) [] [] =
      mkRawEvent l1 l2 :: streamLoop rest [] [] := by
  rw [streamLoop_consume_line l1 h1 _ [] [], if_pos rfl, List.nil_append,
    streamLoop_consume_line l2 h2 rest l1 [], if_neg hne, List.nil_append]

/-- Every frame emitted by the read loop itself carries a nil error; only
the terminal event appended afterwards can carry one. -/
theorem streamLoop_error_none (input : List Char) :
    ∀ fl buf : List Char, ∀ e ∈ streamLoop input fl buf, e.Error = none := by
  induction input with
  | nil => intro fl buf e he; simp [streamLoop] at he
  | cons b rest ih =>
    intro fl buf e he
    rw [streamLoop] at he
    by_cases hb : b = '\n'
    · rw [if_pos hb] at he
      by_cases hf : fl = []
      · rw [if_pos hf] at he; exact ih _ _ _ he
      · rw [if_neg hf] at he
        rcases List.mem_cons.mp he with rfl | he
        · rfl
        · exact ih _ _ _ he
    · rw [if_neg hb] at he; exact ih _ _ _ he

/-- A comparison list `l` is a prefix of `l ++ s` in the Boolean sense. -/
theorem isPrefixOf_self_append (l s : List Char) : l.isPrefixOf (l ++ s) = true := by
  induction l with
  | nil => simp [List.isPrefixOf]
  | cons a l ih => simp [List.isPrefixOf, ih]

/-- Removing the first occurrence of a pattern from a string that starts
with that pattern removes exactly the leading pattern. -/
theorem stripFirst_of_self_append (pat s : List Char) : stripFirst pat (pat ++ s) = s := by
  cases pat with
  | nil =>
    cases s with
    | nil => rfl
    | cons c t => simp [stripFirst, List.isPrefixOf]
  | cons p pr =>
    rw [List.cons_append, stripFirst, if_pos]
    · rw [← List.cons_append, List.drop_left]
    · rw [← List.cons_append]; exact isPrefixOf_self_append (p :: pr) s

/-- Removing the first occurrence of a pattern from a string in which the
pattern occurs nowhere leaves the string unchanged. -/
theorem stripFirst_no_occurrence (pat : List Char) :
    ∀ s : List Char, (∀ i, i < s.length → pat.isPrefixOf (s.drop i) = false) →
      stripFirst pat s = s := by
  intro s
  induction s with
  | nil => intro _; rfl
  | cons c t ih =>
    intro h
    have h0 : pat.isPrefixOf (c :: t) = false := h 0 (by simp)
    rw [stripFirst, if_neg (by simp [h0])]
    have ht : ∀ i, i < t.length → pat.isPrefixOf (t.drop i) = false := by
      intro i hi
      have := h (i + 1) (by simp; omega)
      simpa using this
    rw [ih ht]

/-- Removing the first occurrence of a pattern whose first occurrence is in
the interior of the string removes exactly that interior occurrence. -/
theorem stripFirst_interior (pat : List Char) :
    ∀ a b : List Char,
      (∀ i, i < a.length → pat.isPrefixOf ((a ++ (pat ++ b)).drop i) = false) →
      stripFirst pat (a ++ (pat ++ b)) = a ++ b := by
  intro a
  induction a with
  | nil => intro b _; simpa using stripFirst_of_self_append pat b
  | cons c a ih =>
    intro b h
    have h0 : pat.isPrefixOf (c :: (a ++ (pat ++ b))) = false := by
      have := h 0 (by simp)
      simpa using this
    rw [List.cons_append, stripFirst, if_neg (by simp [h0])]
    have ht : ∀ i, i < a.length → pat.isPrefixOf ((a ++ (pat ++ b)).drop i) = false := by
      intro i hi
      have := h (i + 1) (by simp; omega)
      simpa using this
    rw [ih b ht, List.cons_append]

/-! ### Helper lemmas about the Watch decode loop -/

/-- A raw event carrying a non-nil error is forwarded as is and the loop
continues (declarations.go lines 331-335). -/
theorem watchLoop_cons_error {α : Type} (d : String → Except GoErr Envelope)
    (u : String → String → Except GoErr α) (raw : RawEvent) (rest : List RawEvent)
    (err : GoErr) (h : raw.Error = some err) :
    watchLoop d u (raw :: rest) =
      { Event := raw.Event, Path := "", Resource := none, RawData := raw.Data,
        UnmarshallerError := none, Error := some err } :: watchLoop d u rest := by
  obtain ⟨ev, da, er⟩ := raw
  cases h
  simp [watchLoop]

/-- A "patch" or "put" raw event with nil error runs `handlePatchPut` on the
freshly wrapped event and forwards the result. -/
theorem watchLoop_cons_patchPut {α : Type} (d : String → Except GoErr Envelope)
    (u : String → String → Except GoErr α) (raw : RawEvent) (rest : List RawEvent)
    (he : raw.Error = none) (hev : raw.Event = "patch" ∨ raw.Event = "put") :
    watchLoop d u (raw :: rest) =
      handlePatchPut d u
        { Event := raw.Event, Path := "", Resource := none, RawData := raw.Data,
          UnmarshallerError := none, Error := none } :: watchLoop d u rest := by
  obtain ⟨ev, da, er⟩ := raw
  cases he
  rcases hev with h | h <;> cases h <;> simp +decide [watchLoop]

/-- A "keep-alive" raw event with nil error is dropped. -/
theorem watchLoop_cons_keepAlive {α : Type} (d : String → Except GoErr Envelope)
    (u : String → String → Except GoErr α) (raw : RawEvent) (rest : List RawEvent)
    (he : raw.Error = none) (hev : raw.Event = "keep-alive") :
    watchLoop d u (raw :: rest) = watchLoop d u rest := by
  obtain ⟨ev, da, er⟩ := raw
  cases he; cases hev
  simp +decide [watchLoop]

/-- A "cancel" raw event with nil error produces one event carrying the
Permission Denied error, and the loop continues with the remaining raw
events: the output channel is not closed. -/
theorem watchLoop_cons_cancel {α : Type} (d : String → Except GoErr Envelope)
    (u : String → String → Except GoErr α) (raw : RawEvent) (rest : List RawEvent)
    (he : raw.Error = none) (hev : raw.Event = "cancel") :
    watchLoop d u (raw :: rest) =
      { Event := "cancel", Path := "", Resource := none, RawData := raw.Data,
        UnmarshallerError := none, Error := some (GoErr.strError "Permission Denied") } ::
        watchLoop d u rest := by
  obtain ⟨ev, da, er⟩ := raw
  cases he; cases hev
  simp +decide [watchLoop]

/-- An "auth_revoked" raw event with nil error produces one event carrying
the Auth Token Revoked error and then the channel is closed: nothing after
it is processed. -/
theorem watchLoop_cons_auth {α : Type} (d : String → Except GoErr Envelope)
    (u : String → String → Except GoErr α) (raw : RawEvent) (rest : List RawEvent)
    (he : raw.Error = none) (hev : raw.Event = "auth_revoked") :
    watchLoop d u (raw :: rest) =
      [{ Event := "auth_revoked", Path := "", Resource := none, RawData := raw.Data,
         UnmarshallerError := none, Error := some (GoErr.strError "Auth Token Revoked") }] := by
  obtain ⟨ev, da, er⟩ := raw
  cases he; cases hev
  simp +decide [watchLoop]

/-- A raw event with nil error whose type is none of the five recognized
ones is dropped: the switch has no default case. -/
theorem watchLoop_cons_other {α : Type} (d : String → Except GoErr Envelope)
    (u : String → String → Except GoErr α) (raw : RawEvent) (rest : List RawEvent)
    (he : raw.Error = none)
    (hev : raw.Event ∉ (["put", "patch", "keep-alive", "cancel", "auth_revoked"] : List String)) :
    watchLoop d u (raw :: rest) = watchLoop d u rest := by
  obtain ⟨ev, da, er⟩ := raw
  cases he
  simp only [List.mem_cons, List.not_mem_nil, or_false, not_or] at hev
  obtain ⟨h1, h2, h3, h4, h5⟩ := hev
  simp [watchLoop, h1, h2, h3, h4, h5]

/-! ### Wire encodings used to state the claims -/

/-- The wire encoding of one well-formed frame: the line `event: <e>`
followed by the line `data: <d>`, each newline-terminated. -/
def encodeFrame (e d : String) : List Char :=
  (eventTag ++ e.data) ++ '\n' :: ((dataTag ++ d.data) ++ ['\n'])

/-- The wire encoding of a list of well-formed (event-type, data) pairs. -/
def encodePairs : List (String × String) → List Char
  | [] => []
  | (e, d) :: ps => (eventTag ++ e.data) ++ '\n' :: ((dataTag ++ d.data) ++ '\n' :: encodePairs ps)

/-- `encodePairs` is frame-by-frame concatenation of `encodeFrame`. -/
theorem encodePairs_cons (e d : String) (ps : List (String × String)) :
    encodePairs ((e, d) :: ps) = encodeFrame e d ++ encodePairs ps := by
  simp [encodePairs, encodeFrame, List.append_assoc]

/-- The wire input consisting of `n` keep-alive frames: `n` copies of the
two lines `event: keep-alive` and `data: null`. -/
def keepAliveStream : Nat → List Char
  | 0 => []
  | n + 1 => "event: keep-alive".data ++ '\n' :: ("data: null".data ++ '\n' :: keepAliveStream n)

/-- Each keep-alive repetition is the encoding of one keep-alive frame. -/
theorem keepAliveStream_succ (n : Nat) :
    keepAliveStream (n + 1) = encodeFrame "keep-alive" "null" ++ keepAliveStream n := by
  rw [keepAliveStream]
  rw [show "event: keep-alive".data = eventTag ++ "keep-alive".data from by decide]
  rw [show "data: null".data = dataTag ++ "null".data from by decide]
  simp [encodeFrame, List.append_assoc]

/-- The frame built from an encoded pair strips exactly the leading tags. -/
theorem mkRawEvent_encoded (e d : String) :
    mkRawEvent (eventTag ++ e.data) (dataTag ++ d.data) =
      { Event := e, Data := d, Error := none } := by
  simp [mkRawEvent, stripFirst_of_self_append]

/-! ### Claim C3 -/

/-- C3 counterexample: the input consists of the non-empty line
`event: put` followed by an empty line.  The claim says every empty line is
skipped and a frame is emitted only from two consecutive non-empty lines,
so no frame should be emitted here (the parser should still be waiting for
a data line).  The code instead emits a frame whose Data field is the
(prefix-stripped) empty line. -/
theorem C3_counterexample :
    streamLoop "event: put\n\n".data [] [] =
      [{ Event := "put", Data := "", Error := none }] := by decide

/-- C3 (amended): empty lines are insignificant only in the
AWAITING_EVENT_LINE state, where they leave the state unchanged; in the
AWAITING_DATA_LINE state any completed line — including an empty one —
emits a frame whose data field is that line.  The machine is:
AWAITING_EVENT_LINE on an empty line stays put, on a non-empty line moves
to AWAITING_DATA_LINE, and AWAITING_DATA_LINE on any line emits a frame
and returns to AWAITING_EVENT_LINE. -/
theorem C3_empty_line_handling :
    (∀ rest : List Char, streamLoop ('\n' :: rest) [] [] = streamLoop rest [] []) ∧
    (∀ fl buf rest : List Char, fl ≠ [] →
      streamLoop ('\n' :: rest) fl buf = mkRawEvent fl buf :: streamLoop rest [] []) ∧
    (∀ l rest : List Char, '\n' ∉ l →
      streamLoop (l ++ '\n' :: rest) [] [] = streamLoop rest l []) := by
  refine ⟨fun rest => ?_, fun fl buf rest hfl => ?_, fun l rest hl => ?_⟩
  · simp [streamLoop]
  · simp [streamLoop, hfl]
  · rw [streamLoop_consume_line l hl rest [] [], if_pos rfl, List.nil_append]

/-- Witness for the amended C3 theorem at concrete inputs. -/
theorem C3_empty_line_handling_witness :
    ("event: put".data ≠ ([] : List Char)) ∧
    streamLoop ('\n' :: []) "event: put".data [] =
      mkRawEvent "event: put".data [] :: streamLoop [] [] [] ∧
    ('\n' ∉ "data: null".data) ∧
    streamLoop ("data: null".data ++ '\n' :: []) [] [] = streamLoop [] "data: null".data [] :=
  ⟨by decide, C3_empty_line_handling.2.1 "event: put".data [] [] (by decide), by decide,
    C3_empty_line_handling.2.2 "data: null".data [] (by decide)⟩

/-! ### Claim C4 -/

/-- C4: for every byte stream made of valid newline-terminated
`event: `/`data: ` line pairs, the parser emits exactly one RawFrame per
pair, in input order, with the literal tags stripped to obtain the Event
and Data fields.  The event-type and data strings are arbitrary (any
length), so no fixed buffer truncates long payloads. -/
theorem C4_one_frame_per_pair (ps : List (String × String))
    (h : ∀ p ∈ ps, '\n' ∉ p.1.data ∧ '\n' ∉ p.2.data) :
    streamLoop (encodePairs ps) [] [] =
      ps.map (fun p => { Event := p.1, Data := p.2, Error := none }) := by
  induction ps with
  | nil => rfl
  | cons p ps ih =>
    obtain ⟨e, d⟩ := p
    obtain ⟨he, hd⟩ := h (e, d) (List.mem_cons_self _ _)
    have h' : ∀ p ∈ ps, '\n' ∉ p.1.data ∧ '\n' ∉ p.2.data :=
      fun p hp => h p (List.mem_cons_of_mem _ hp)
    rw [encodePairs, streamLoop_pair (eventTag ++ e.data) (dataTag ++ d.data)
      (encodePairs ps) ?h1 ?h2 ?h3, ih h', mkRawEvent_encoded, List.map_cons]
    case h1 =>
      intro hm
      rcases List.mem_append.mp hm with hm | hm
      · exact absurd hm (by decide)
      · exact he hm
    case h2 =>
      intro hm
      rcases List.mem_append.mp hm with hm | hm
      · exact absurd hm (by decide)
      · exact hd hm
    case h3 =>
      intro h0
      rcases List.append_eq_nil.mp h0 with ⟨h0, _⟩
      exact absurd h0 (by decide)

/-- Witness for C4 at a concrete two-pair stream. -/
theorem C4_one_frame_per_pair_witness :
    (∀ p ∈ ([("put", "ENV"), ("patch", "null")] : List (String × String)),
      '\n' ∉ p.1.data ∧ '\n' ∉ p.2.data) ∧
    streamLoop (encodePairs [("put", "ENV"), ("patch", "null")]) [] [] =
      [{ Event := "put", Data := "ENV", Error := none },
       { Event := "patch", Data := "null", Error := none }] :=
  ⟨by decide, (C4_one_frame_per_pair _ (by decide)).trans (by decide)⟩

/-! ### Claim C5 -/

/-- C5: for every stream session, the last item placed on the raw event
channel before it is closed is the single terminal event: its error is nil
exactly when the read ended with a clean EOF (`readErr = none`, the Go
code maps `io.EOF` to a nil error) and otherwise carries the read error,
and every event before it is an ordinary frame with a nil error. -/
theorem C5_terminal_event (input : List Char) (readErr : Option GoErr) :
    (streamEvents input readErr).getLast? =
      some { Event := "", Data := "", Error := readErr } ∧
    ∀ e ∈ (streamEvents input readErr).dropLast, e.Error = none := by
  constructor
  · rw [streamEvents, List.getLast?_concat]
  · rw [streamEvents, List.dropLast_concat]
    exact streamLoop_error_none input [] []

/-- Witness for C5 at a concrete severed-connection session. -/
theorem C5_terminal_event_witness :
    (streamEvents "event: put\ndata: ENV\n".data (some (GoErr.ioError "severed"))).getLast? =
      some { Event := "", Data := "", Error := some (GoErr.ioError "severed") } ∧
    ∀ e ∈ (streamEvents "event: put\ndata: ENV\n".data
      (some (GoErr.ioError "severed"))).dropLast, e.Error = none :=
  C5_terminal_event "event: put\ndata: ENV\n".data (some (GoErr.ioError "severed"))

/-! ### Claim C10 -/

/-- C10: the Event field of an emitted frame is the first line with only
the first occurrence of "event: " removed, wherever that occurrence is
(and likewise Data with "data: "): a line beginning with the tag has
exactly the leading tag removed, a line in which the tag occurs nowhere
passes through unchanged, a line whose first tag occurrence is interior
has exactly that occurrence removed, and the frame emitted from a parsed
line pair applies exactly this transformation to the two lines. -/
theorem C10_replace_first_occurrence :
    (∀ pat s : List Char, stripFirst pat (pat ++ s) = s) ∧
    (∀ pat s : List Char,
      (∀ i, i < s.length → pat.isPrefixOf (s.drop i) = false) → stripFirst pat s = s) ∧
    (∀ pat a b : List Char,
      (∀ i, i < a.length → pat.isPrefixOf ((a ++ (pat ++ b)).drop i) = false) →
      stripFirst pat (a ++ (pat ++ b)) = a ++ b) ∧
    (∀ l1 l2 rest : List Char, '\n' ∉ l1 → '\n' ∉ l2 → l1 ≠ [] →
      streamLoop (l1 ++ '\n' :: (l2 ++ '\n' :: rest)) [] [] =
        { Event := String.mk (stripFirst eventTag l1),
          Data := String.mk (stripFirst dataTag l2), Error := none } ::
          streamLoop rest [] []) :=
  ⟨stripFirst_of_self_append, stripFirst_no_occurrence, stripFirst_interior,
    fun l1 l2 rest h1 h2 hne => streamLoop_pair l1 l2 rest h1 h2 hne⟩

/-- Witness for C10: a line with the leading tag, a line with no tag, a
line with an interior tag, and one concretely parsed frame. -/
theorem C10_replace_first_occurrence_witness :
    stripFirst eventTag (eventTag ++ "put".data) = "put".data ∧
    stripFirst eventTag "no tag here".data = "no tag here".data ∧
    stripFirst eventTag ("xy".data ++ (eventTag ++ "z".data)) = "xy".data ++ "z".data ∧
    streamLoop ("event: put".data ++ '\n' :: ("data: null".data ++ '\n' :: [])) [] [] =
      { Event := String.mk (stripFirst eventTag "event: put".data),
        Data := String.mk (stripFirst dataTag "data: null".data), Error := none } ::
        streamLoop [] [] [] :=
  ⟨C10_replace_first_occurrence.1 eventTag "put".data,
    C10_replace_first_occurrence.2.1 eventTag "no tag here".data (by decide),
    C10_replace_first_occurrence.2.2.1 eventTag "xy".data "z".data (by decide),
    C10_replace_first_occurrence.2.2.2 "event: put".data "data: null".data []
      (by decide) (by decide) (by decide)⟩

/-! ### Claim C1 -/

/-- C1 counterexample: a stream delivering two cancel frames and then a
clean EOF.  The claim says the Watch output channel carries exactly one
Permission Denied event and is closed immediately after it, with no
further frames processed.  The code instead keeps the loop running after a
cancel frame: the second cancel frame produces a second Permission Denied
event. -/
theorem C1_counterexample :
    watchOutput testEnvDecode testUnmarshaller
      "event: cancel\ndata: null\nevent: cancel\ndata: null\n".data none =
      [{ Event := "cancel", Path := "", Resource := none, RawData := "null",
         UnmarshallerError := none, Error := some (GoErr.strError "Permission Denied") },
       { Event := "cancel", Path := "", Resource := none, RawData := "null",
         UnmarshallerError := none, Error := some (GoErr.strError "Permission Denied") }] := by
  decide

/-- C1 (amended): a cancel frame with nil transport error produces exactly
one event carrying the fixed Permission Denied error, but the output
channel is not closed: the decode loop continues and every frame that
follows the cancel frame is still processed (only auth_revoked closes the
channel early). -/
theorem C1_cancel_emits_once_but_does_not_close {α : Type}
    (d : String → Except GoErr Envelope) (u : String → String → Except GoErr α)
    (raw : RawEvent) (rest : List RawEvent)
    (he : raw.Error = none) (hev : raw.Event = "cancel") :
    watchLoop d u (raw :: rest) =
      { Event := "cancel", Path := "", Resource := none, RawData := raw.Data,
        UnmarshallerError := none, Error := some (GoErr.strError "Permission Denied") } ::
        watchLoop d u rest :=
  watchLoop_cons_cancel d u raw rest he hev

/-- Witness for the amended C1 theorem: a cancel frame followed by another
frame, which is still processed. -/
theorem C1_cancel_witness :
    (({ Event := "cancel", Data := "null", Error := none } : RawEvent).Error = none) ∧
    (({ Event := "cancel", Data := "null", Error := none } : RawEvent).Event = "cancel") ∧
    watchLoop testEnvDecode testUnmarshaller
      [{ Event := "cancel", Data := "null", Error := none },
       { Event := "cancel", Data := "null", Error := none }] =
      { Event := "cancel", Path := "", Resource := none, RawData := "null",
        UnmarshallerError := none, Error := some (GoErr.strError "Permission Denied") } ::
        watchLoop testEnvDecode testUnmarshaller
          [{ Event := "cancel", Data := "null", Error := none }] :=
  ⟨rfl, rfl, C1_cancel_emits_once_but_does_not_close testEnvDecode testUnmarshaller
    { Event := "cancel", Data := "null", Error := none }
    [{ Event := "cancel", Data := "null", Error := none }] rfl rfl⟩

/-! ### Claim C2 -/

/-- C2 counterexample: a stream with two put frames whose payload "BAD"
fails envelope decoding, then a clean EOF.  Both output events carry a
stream-level error (`handlePatchPut` stores the envelope decode error in
the Error field), yet the first one is not the final event on the channel:
a later event follows it, contradicting the claimed invariant. -/
theorem C2_counterexample :
    watchOutput testEnvDecode testUnmarshaller
      "event: put\ndata: BAD\nevent: put\ndata: BAD\n".data none =
      [{ Event := "put", Path := "", Resource := none, RawData := "BAD",
         UnmarshallerError := none, Error := some (GoErr.jsonError "BAD") },
       { Event := "put", Path := "", Resource := none, RawData := "BAD",
         UnmarshallerError := none, Error := some (GoErr.jsonError "BAD") }] := by
  decide

/-- C2 (amended): an event whose stream-level Error field is set carries no
other decoded content — no Resource, no UnmarshallerError, and an empty
Path.  Such an event is not necessarily the final event on the channel:
envelope decode errors and cancel events carry a stream-level error while
the stream continues; only auth_revoked and the forwarded terminal
transport error end the stream. -/
theorem C2_error_events_carry_no_content {α : Type}
    (d : String → Except GoErr Envelope) (u : String → String → Except GoErr α)
    (raws : List RawEvent) (e : StreamEvent α)
    (hmem : e ∈ watchLoop d u raws) (herr : e.Error ≠ none) :
    e.Resource = none ∧ e.UnmarshallerError = none ∧ e.Path = "" := by
  induction raws with
  | nil => simp [watchLoop] at hmem
  | cons raw rest ih =>
    obtain ⟨ev, da, er⟩ := raw
    cases er with
    | some err =>
      rw [watchLoop_cons_error d u _ rest err rfl] at hmem
      rcases List.mem_cons.mp hmem with rfl | hmem
      · exact ⟨rfl, rfl, rfl⟩
      · exact ih hmem
    | none =>
      by_cases hpp : (ev : String) = "patch" ∨ (ev : String) = "put"
      · rw [watchLoop_cons_patchPut d u _ rest rfl hpp] at hmem
        rcases List.mem_cons.mp hmem with rfl | hmem
        · cases hd : d da with
          | error err2 => simp [handlePatchPut, hd]
          | ok env =>
            exfalso
            apply herr
            cases hu : u env.Path env.Data with
            | error ue => simp [handlePatchPut, hd, hu]
            | ok ob => simp [handlePatchPut, hd, hu]
        · exact ih hmem
      · by_cases hka : (ev : String) = "keep-alive"
        · rw [watchLoop_cons_keepAlive d u _ rest rfl hka] at hmem
          exact ih hmem
        · by_cases hc : (ev : String) = "cancel"
          · rw [watchLoop_cons_cancel d u _ rest rfl hc] at hmem
            rcases List.mem_cons.mp hmem with rfl | hmem
            · exact ⟨rfl, rfl, rfl⟩
            · exact ih hmem
          · by_cases hauth : (ev : String) = "auth_revoked"
            · rw [watchLoop_cons_auth d u _ rest rfl hauth] at hmem
              rcases List.mem_cons.mp hmem with rfl | hmem
              · exact ⟨rfl, rfl, rfl⟩
              · simp at hmem
            · rcases not_or.mp hpp with ⟨hp1, hp2⟩
              rw [watchLoop_cons_other d u _ rest rfl
                (by simp [hp1, hp2, hka, hc, hauth])] at hmem
              exact ih hmem

/-- Witness for the amended C2 theorem at a concrete error-carrying
event. -/
theorem C2_error_events_witness :
    ({ Event := "put", Path := "", Resource := none, RawData := "BAD",
       UnmarshallerError := none,
       Error := some (GoErr.jsonError "BAD") } : StreamEvent Nat) ∈
      watchLoop testEnvDecode testUnmarshaller
        [{ Event := "put", Data := "BAD", Error := none }] ∧
    (({ Event := "put", Path := "", Resource := none, RawData := "BAD",
        UnmarshallerError := none,
        Error := some (GoErr.jsonError "BAD") } : StreamEvent Nat).Error ≠ none) ∧
    (({ Event := "put", Path := "", Resource := none, RawData := "BAD",
        UnmarshallerError := none,
        Error := some (GoErr.jsonError "BAD") } : StreamEvent Nat).Resource = none ∧
      ({ Event := "put", Path := "", Resource := none, RawData := "BAD",
         UnmarshallerError := none,
         Error := some (GoErr.jsonError "BAD") } : StreamEvent Nat).UnmarshallerError = none ∧
      ({ Event := "put", Path := "", Resource := none, RawData := "BAD",
         UnmarshallerError := none,
         Error := some (GoErr.jsonError "BAD") } : StreamEvent Nat).Path = "") :=
  ⟨by decide, by decide,
    C2_error_events_carry_no_content testEnvDecode testUnmarshaller
      [{ Event := "put", Data := "BAD", Error := none }] _ (by decide) (by decide)⟩

/-! ### Claim C6 -/

/-- C6 counterexample: one keep-alive frame followed by a clean EOF.  The
claim says the Watch output channel carries exactly one event (an
error-free terminal event).  The code emits the terminal raw event only on
the raw channel; the Watch decode loop drops it (its Event "" matches no
switch case), so the Watch output channel carries zero events. -/
theorem C6_counterexample :
    watchOutput testEnvDecode testUnmarshaller
      "event: keep-alive\ndata: null\n".data none = ([] : List (StreamEvent Nat)) := by
  decide

/-- The read loop turns `n` keep-alive repetitions into `n` keep-alive
frames. -/
theorem streamLoop_keepAliveStream (n : Nat) :
    streamLoop (keepAliveStream n) [] [] =
      List.replicate n { Event := "keep-alive", Data := "null", Error := none } := by
  induction n with
  | zero => rfl
  | succ n ih =>
    rw [keepAliveStream, streamLoop_pair _ _ _ (by decide) (by decide) (by decide), ih,
      List.replicate_succ]
    congr 1

/-- The Watch decode loop drops `n` keep-alive frames and the error-free
terminal raw event. -/
theorem watchLoop_keepAlives_terminal {α : Type} (d : String → Except GoErr Envelope)
    (u : String → String → Except GoErr α) (n : Nat) :
    watchLoop d u
      (List.replicate n { Event := "keep-alive", Data := "null", Error := none } ++
        [{ Event := "", Data := "", Error := none }]) = [] := by
  induction n with
  | zero =>
    rw [List.replicate_zero, List.nil_append,
      watchLoop_cons_other d u _ [] rfl (by decide)]
    rfl
  | succ n ih =>
    rw [List.replicate_succ, List.cons_append,
      watchLoop_cons_keepAlive d u _ _ rfl rfl]
    exact ih

/-- C6 (amended): keep-alive frames never produce an output event on the
Watch channel.  For a stream of `n` keep-alive frames followed by a clean
EOF, the raw event channel carries exactly the `n` keep-alive frames plus
one error-free terminal event as its last item, while the Watch output
channel carries no events at all before closing: the nil-error terminal
raw event is dropped by the decode loop, not forwarded. -/
theorem C6_keepalive_amended {α : Type} (d : String → Except GoErr Envelope)
    (u : String → String → Except GoErr α) (n : Nat) :
    (∀ (raw : RawEvent) (rest : List RawEvent), raw.Error = none →
      raw.Event = "keep-alive" → watchLoop (α := α) d u (raw :: rest) = watchLoop d u rest) ∧
    streamEvents (keepAliveStream n) none =
      List.replicate n { Event := "keep-alive", Data := "null", Error := none } ++
        [{ Event := "", Data := "", Error := none }] ∧
    watchOutput d u (keepAliveStream n) none = ([] : List (StreamEvent α)) := by
  refine ⟨fun raw rest he hev => watchLoop_cons_keepAlive d u raw rest he hev, ?_, ?_⟩
  · rw [streamEvents, streamLoop_keepAliveStream n]
  · rw [watchOutput, streamEvents, streamLoop_keepAliveStream n]
    exact watchLoop_keepAlives_terminal d u n

/-- Witness for the amended C6 theorem at `n = 2`. -/
theorem C6_keepalive_amended_witness :
    watchLoop testEnvDecode testUnmarshaller
      [{ Event := "keep-alive", Data := "null", Error := none }] =
      watchLoop testEnvDecode testUnmarshaller [] ∧
    streamEvents (keepAliveStream 2) none =
      List.replicate 2 { Event := "keep-alive", Data := "null", Error := none } ++
        [{ Event := "", Data := "", Error := none }] ∧
    watchOutput testEnvDecode testUnmarshaller (keepAliveStream 2) none =
      ([] : List (StreamEvent Nat)) :=
  ⟨(C6_keepalive_amended testEnvDecode testUnmarshaller 2).1
      { Event := "keep-alive", Data := "null", Error := none } [] rfl rfl,
    (C6_keepalive_amended testEnvDecode testUnmarshaller 2).2.1,
    (C6_keepalive_amended testEnvDecode testUnmarshaller 2).2.2⟩

/-! ### Claim C7 -/

/-- C7: a "put" or "patch" frame (nil transport error) whose data payload
fails to decode as the JSON envelope yields one output event carrying the
decode error in its Error field and an empty Path, with no decoded object
and no unmarshaller result (the unmarshaller is never consulted: the
emitted event does not depend on it), and the stream continues — the
remaining raw events are processed exactly as they would be otherwise. -/
theorem C7_envelope_decode_failure {α : Type}
    (d : String → Except GoErr Envelope) (u : String → String → Except GoErr α)
    (raw : RawEvent) (rest : List RawEvent) (err : GoErr)
    (he : raw.Error = none) (hev : raw.Event = "patch" ∨ raw.Event = "put")
    (hd : d raw.Data = .error err) :
    watchLoop d u (raw :: rest) =
      { Event := raw.Event, Path := "", Resource := none, RawData := raw.Data,
        UnmarshallerError := none, Error := some err } :: watchLoop d u rest := by
  rw [watchLoop_cons_patchPut d u raw rest he hev]
  congr 1
  simp [handlePatchPut, hd]

/-- Witness for C7: a put frame with undecodable payload "BAD", followed by
a decodable put frame that is still processed. -/
theorem C7_envelope_decode_failure_witness :
    (({ Event := "put", Data := "BAD", Error := none } : RawEvent).Error = none) ∧
    (({ Event := "put", Data := "BAD", Error := none } : RawEvent).Event = "patch" ∨
      ({ Event := "put", Data := "BAD", Error := none } : RawEvent).Event = "put") ∧
    testEnvDecode "BAD" = .error (GoErr.jsonError "BAD") ∧
    watchLoop testEnvDecode testUnmarshaller
      [{ Event := "put", Data := "BAD", Error := none },
       { Event := "put", Data := "ENV", Error := none }] =
      { Event := "put", Path := "", Resource := none, RawData := "BAD",
        UnmarshallerError := none, Error := some (GoErr.jsonError "BAD") } ::
        watchLoop testEnvDecode testUnmarshaller
          [{ Event := "put", Data := "ENV", Error := none }] :=
  ⟨rfl, Or.inr rfl, rfl,
    C7_envelope_decode_failure testEnvDecode testUnmarshaller
      { Event := "put", Data := "BAD", Error := none }
      [{ Event := "put", Data := "ENV", Error := none }]
      (GoErr.jsonError "BAD") rfl (Or.inr rfl) rfl⟩

/-! ### Claim C8 -/

/-- C8: a "put" or "patch" frame whose envelope decodes successfully but
whose caller-supplied unmarshaller fails yields one output event carrying
the unmarshaller error in its UnmarshallerError field, no decoded
Resource, a nil stream-level Error, and Path and RawData populated from
the successfully decoded envelope; the remaining raw events are processed
exactly as they would be otherwise. -/
theorem C8_unmarshaller_failure {α : Type}
    (d : String → Except GoErr Envelope) (u : String → String → Except GoErr α)
    (raw : RawEvent) (rest : List RawEvent) (env : Envelope) (uerr : GoErr)
    (he : raw.Error = none) (hev : raw.Event = "patch" ∨ raw.Event = "put")
    (hd : d raw.Data = .ok env) (hu : u env.Path env.Data = .error uerr) :
    watchLoop d u (raw :: rest) =
      { Event := raw.Event, Path := env.Path, Resource := none, RawData := raw.Data,
        UnmarshallerError := some uerr, Error := none } :: watchLoop d u rest := by
  rw [watchLoop_cons_patchPut d u raw rest he hev]
  congr 1
  simp [handlePatchPut, hd, hu]

/-- Test stand-in for a caller-supplied unmarshaller that always rejects
the inner data (mirroring the crashing unmarshaller in client_test.go). -/
def testUnmarshallerFail (_path : String) (_data : String) : Except GoErr Nat :=
  .error (GoErr.userError "crash")

/-- Witness for C8: a put frame with a valid envelope and a rejecting
unmarshaller, followed by another frame that is still processed. -/
theorem C8_unmarshaller_failure_witness :
    (({ Event := "put", Data := "ENV", Error := none } : RawEvent).Error = none) ∧
    (({ Event := "put", Data := "ENV", Error := none } : RawEvent).Event = "patch" ∨
      ({ Event := "put", Data := "ENV", Error := none } : RawEvent).Event = "put") ∧
    testEnvDecode "ENV" = .ok { Path := "1/2/3", Data := "DATA" } ∧
    testUnmarshallerFail "1/2/3" "DATA" = .error (GoErr.userError "crash") ∧
    watchLoop testEnvDecode testUnmarshallerFail
      [{ Event := "put", Data := "ENV", Error := none },
       { Event := "keep-alive", Data := "null", Error := none }] =
      { Event := "put", Path := "1/2/3", Resource := none, RawData := "ENV",
        UnmarshallerError := some (GoErr.userError "crash"), Error := none } ::
        watchLoop testEnvDecode testUnmarshallerFail
          [{ Event := "keep-alive", Data := "null", Error := none }] :=
  ⟨rfl, Or.inr rfl, rfl, rfl,
    C8_unmarshaller_failure testEnvDecode testUnmarshallerFail
      { Event := "put", Data := "ENV", Error := none }
      [{ Event := "keep-alive", Data := "null", Error := none }]
      { Path := "1/2/3", Data := "DATA" } (GoErr.userError "crash")
      rfl (Or.inr rfl) rfl rfl⟩

/-! ### Claim C9 -/

/-- C9: a raw frame with nil transport error whose event type is none of
"put", "patch", "keep-alive", "cancel" or "auth_revoked" produces no
output event at all: the switch has no default case, so unrecognized event
types are silently dropped and the remaining raw events are processed as
if the frame were absent. -/
theorem C9_unrecognized_dropped {α : Type}
    (d : String → Except GoErr Envelope) (u : String → String → Except GoErr α)
    (raw : RawEvent) (rest : List RawEvent)
    (he : raw.Error = none)
    (hev : raw.Event ∉ (["put", "patch", "keep-alive", "cancel", "auth_revoked"] : List String)) :
    watchLoop d u (raw :: rest) = watchLoop d u rest :=
  watchLoop_cons_other d u raw rest he hev

/-- Witness for C9 at a concrete unrecognized frame. -/
theorem C9_unrecognized_dropped_witness :
    (({ Event := "bogus", Data := "x", Error := none } : RawEvent).Error = none) ∧
    (({ Event := "bogus", Data := "x", Error := none } : RawEvent).Event ∉
      (["put", "patch", "keep-alive", "cancel", "auth_revoked"] : List String)) ∧
    watchLoop testEnvDecode testUnmarshaller
      [{ Event := "bogus", Data := "x", Error := none },
       { Event := "cancel", Data := "null", Error := none }] =
      watchLoop testEnvDecode testUnmarshaller
        [{ Event := "cancel", Data := "null", Error := none }] :=
  ⟨rfl, by decide,
    C9_unrecognized_dropped testEnvDecode testUnmarshaller
      { Event := "bogus", Data := "x", Error := none }
      [{ Event := "cancel", Data := "null", Error := none }] rfl (by decide)⟩

end Firebase
